import Mathlib

/-!
A shallow embedding, in Lean 4, of the refresh-and-aggregation engine of
`traefik_dynamic_public_whitelist.go` (a Traefik plugin maintaining a
dynamically refreshed IP allow-list), together with theorems settling the
specification claims about it.

Conventions of the embedding:
* Go byte slices holding textual payloads are modelled as `String`
  (all payloads in this program are text).
* Go `net.IP` (a byte slice, possibly `nil`) is modelled as `List Nat`
  of byte values, with `[]` standing for `nil`.
* Fallible Go functions returning `(T, error)` are modelled as
  `Except String T`, carrying the Go error message.
* The injected HTTP getter `httpGetter` is modelled as a pure function
  `String → Except String String` from URL to response body.
* Go standard-library routines used by the program (`strings.TrimSpace`,
  `strings.ToLower`, `strings.Split`, `net.ParseIP`, `net.IP.To4/To16/Mask/String`,
  `net.CIDRMask`, `time.ParseDuration`) are modelled from the Go standard
  library's documented algorithms (Go 1.21 `net/netip` parsing).
-/

namespace TDPW

/-! ## Go string helpers -/

/-- `unicode.IsSpace`: the Unicode White_Space code points
(this is the exact set recognized by Go). -/
def goIsSpace (c : Char) : Bool :=
  let n := c.toNat
  n == 9 || n == 10 || n == 11 || n == 12 || n == 13 || n == 32 ||
  n == 0x85 || n == 0xA0 || n == 0x1680 ||
  (0x2000 ≤ n && n ≤ 0x200A) ||
  n == 0x2028 || n == 0x2029 || n == 0x202F || n == 0x205F || n == 0x3000

/-- `strings.TrimSpace`: drop leading and trailing White_Space characters. -/
def goTrimSpace (s : String) : String :=
  String.mk (((s.toList.dropWhile goIsSpace).reverse.dropWhile goIsSpace).reverse)

/-- `strings.ToLower` restricted to ASCII case mapping (the provider
identifiers compared in this program are ASCII). -/
def goToLowerChar (c : Char) : Char :=
  if 'A' ≤ c && c ≤ 'Z' then Char.ofNat (c.toNat + 32) else c

/-- `strings.ToLower` (ASCII case mapping). -/
def goToLower (s : String) : String :=
  String.mk (s.toList.map goToLowerChar)

/-- Split a character list on `'\n'`, Go `strings.Split` semantics:
the empty input yields one empty field, a trailing separator yields a
trailing empty field. -/
def splitNL (cs : List Char) : List (List Char) :=
  match cs with
  | [] => [[]]
  | c :: rest =>
    if c = '\n' then [] :: splitNL rest
    else
      match splitNL rest with
      | g :: gs => (c :: g) :: gs
      | [] => [[c]]

/-- `strings.Split(s, "\n")`. -/
def splitLines (s : String) : List String :=
  (splitNL s.toList).map String.mk

/-! ## Line-list parsing (`parseLineList`, lines 442–454)

The Go loop appends each trimmed non-empty line to an accumulator;
we mirror it as a left fold over the split lines. -/

/-- One iteration of the `parseLineList` loop body. -/
def lineStep (results : List String) (line : String) : List String :=
  let line := goTrimSpace line
  if line = "" then results else results ++ [line]

/-- `parseLineList(data)`: split on newline, trim each line, keep
non-empty lines in order. -/
def parseLineList (data : String) : List String :=
  (splitLines data).foldl lineStep []

/-! ## The `net` package IP model

Go `net.IP` is a byte slice; we model it as `List Nat` of byte values
with `[]` for `nil`.  `net.ParseIP` (Go ≥ 1.17) delegates to
`netip.ParseAddr` and rejects zoned addresses; successful results are
returned in 16-byte form (`Addr.As16`).  The definitions below follow
the `netip` parsing algorithms; the IPv6 parser works group-wise
(one group = two bytes), with the Go loop's byte index `i`
corresponding to twice the group count here. -/

/-- ASCII decimal digit test. -/
def isDigitChar (c : Char) : Bool := '0' ≤ c && c ≤ '9'

/-- Hex digit test (`netip` accepts both cases). -/
def isHexChar (c : Char) : Bool :=
  ('0' ≤ c && c ≤ '9') || ('a' ≤ c && c ≤ 'f') || ('A' ≤ c && c ≤ 'F')

/-- Value of a hex digit character. -/
def hexCharVal (c : Char) : Nat :=
  if '0' ≤ c && c ≤ '9' then c.toNat - 48
  else if 'a' ≤ c && c ≤ 'f' then c.toNat - 87
  else if 'A' ≤ c && c ≤ 'F' then c.toNat - 55
  else 0

/-- `netip.parseIPv4Fields`: dotted-quad parsing.  State: remaining
input, current octet value, digits in the current octet, completed
fields.  Rejects leading zeros, octets above 255, empty fields, and
anything but exactly four fields. -/
def parseV4Go : List Char → Nat → Nat → List Nat → Option (List Nat)
  | [], val, digLen, fields =>
    -- digLen is zero here only for the empty input, which fails the
    -- four-field requirement below anyway (a trailing dot is rejected
    -- at the dot itself).
    if fields.length < 3 then none
    else if digLen = 0 ∧ fields.isEmpty then none
    else some (fields ++ [val])
  | c :: rest, val, digLen, fields =>
    if isDigitChar c then
      if digLen = 1 ∧ val = 0 then none  -- leading zero in octet
      else
        let val := val * 10 + (c.toNat - 48)
        if val > 255 then none
        else parseV4Go rest val (digLen + 1) fields
    else if c = '.' then
      if digLen = 0 then none            -- ".x", "x..y"
      else if rest.isEmpty then none     -- trailing dot
      else if fields.length = 3 then none -- five or more fields
      else parseV4Go rest 0 0 (fields ++ [val])
    else none

/-- `netip.parseIPv4` on a character list: the four octet values, or
`none` on a malformed dotted quad. -/
def parseIPv4Chars (cs : List Char) : Option (List Nat) :=
  parseV4Go cs 0 0 []

/-- The hex-group scanner inside `netip.parseIPv6`: consume leading hex
digits, accumulating their value; fail (as the whole parse does) if the
accumulator exceeds 16 bits.  Returns the value, the number of digits
consumed, and the rest. -/
def scanHex : List Char → Nat → Nat → Option (Nat × Nat × List Char)
  | [], acc, off => some (acc, off, [])
  | c :: rest, acc, off =>
    if isHexChar c then
      let acc := acc * 16 + hexCharVal c
      if acc > 65535 then none
      else scanHex rest acc (off + 1)
    else some (acc, off, c :: rest)

/-- The tail of `netip.parseIPv6`: with `gs` the parsed groups, `ell`
the group position of a `::` (if any) and `s` the unconsumed input,
either reject or expand `::` to the missing zero groups. -/
def v6Finalize (gs : List Nat) (ell : Option Nat) (s : List Char) :
    Option (List Nat) :=
  if ¬ s.isEmpty then none
  else if gs.length < 8 then
    match ell with
    | none => none
    | some e => some (gs.take e ++ List.replicate (8 - gs.length) 0 ++ gs.drop e)
  else
    match ell with
    | some _ => none   -- `::` must stand for at least one zero group
    | none => some gs

/-- Whether a character list starts with the given character. -/
def headIs (c : Char) : List Char → Bool
  | [] => false
  | x :: _ => x == c

/-- The main loop of `netip.parseIPv6`, group-wise.  Each iteration
parses one hex group (or a trailing embedded IPv4, worth two groups).
The fuel bounds the iteration count; eight groups need at most eight
iterations, so fuel 9 never runs out (fuel exhaustion is unreachable
and maps to the same failure as a malformed address). -/
def v6Loop : Nat → List Nat → Option Nat → List Char → Option (List Nat)
  | 0, gs, ell, s => if gs.length < 8 then none else v6Finalize gs ell s
  | fuel + 1, gs, ell, s =>
    if gs.length < 8 then
      match scanHex s 0 0 with
      | none => none                      -- group value ≥ 2^16
      | some (acc, off, rest) =>
        if off = 0 then none              -- field with no digits
        else if headIs '.' rest then
          -- trailing embedded IPv4, re-parsing the whole remaining
          -- input `s` (scanned digits included) as a dotted quad
          if ell = none ∧ gs.length ≠ 6 then none
          else if gs.length + 2 > 8 then none
          else
            match parseIPv4Chars s with
            | some [a, b, c, d] =>
              v6Finalize (gs ++ [a * 256 + b, c * 256 + d]) ell []
            | _ => none
        else
          let gs := gs ++ [acc]
          if rest.isEmpty then v6Finalize gs ell []
          else if ¬ headIs ':' rest then none   -- group not followed by colon
          else
            let rest1 := rest.tail
            if rest1.isEmpty then none          -- colon at end of input
            else if headIs ':' rest1 then
              match ell with
              | some _ => none                  -- second `::`
              | none =>
                let rest2 := rest1.tail
                if rest2.isEmpty then v6Finalize gs (some gs.length) []
                else v6Loop fuel gs (some gs.length) rest2
            else v6Loop fuel gs ell rest1
    else v6Finalize gs ell s

/-- `netip.parseIPv6` on a character list: the eight 16-bit groups, or
`none`. -/
def parseIPv6Chars (cs : List Char) : Option (List Nat) :=
  match cs with
  | ':' :: ':' :: rest =>
    if rest.isEmpty then some (List.replicate 8 0)
    else v6Loop 9 [] (some 0) rest
  | _ => v6Loop 9 [] none cs

/-- 16-bit groups to bytes, big-endian. -/
def groupsToBytes : List Nat → List Nat
  | [] => []
  | g :: r => g / 256 :: g % 256 :: groupsToBytes r

/-- The 12-byte prefix marking an IPv4-mapped IPv6 address. -/
def v4InV6Prefix : List Nat := [0, 0, 0, 0, 0, 0, 0, 0, 0, 0, 255, 255]

/-- `netip.ParseAddr`'s dispatch: the first of `.`, `:`, `%` decides
the parser (no such character: not an IP at all). -/
def firstSigChar : List Char → Option Char
  | [] => none
  | c :: rest => if c = '.' ∨ c = ':' ∨ c = '%' then some c else firstSigChar rest

/-- `net.ParseIP`: the 16-byte form of the parsed address, `[]` for
`nil` (parse failure).  IPv4 results are returned v4-mapped, as
`Addr.As16` does.  A `%` zone makes `net.ParseIP` return `nil` whether
it reaches the dispatcher first or trips the IPv6 parser. -/
def parseIP (s : String) : List Nat :=
  match firstSigChar s.toList with
  | some '.' =>
    match parseIPv4Chars s.toList with
    | some [a, b, c, d] => v4InV6Prefix ++ [a, b, c, d]
    | _ => []
  | some ':' =>
    match parseIPv6Chars s.toList with
    | some gs => groupsToBytes gs
    | none => []
  | _ => []

/-- `net.IP.To4`: the 4-byte form for IPv4 and IPv4-mapped addresses,
`nil` otherwise. -/
def to4 (ip : List Nat) : List Nat :=
  if ip.length = 4 then ip
  else if ip.length = 16 ∧ ip.take 12 = v4InV6Prefix then ip.drop 12
  else []

/-- `net.IP.To16`. -/
def to16 (ip : List Nat) : List Nat :=
  if ip.length = 4 then v4InV6Prefix ++ ip
  else if ip.length = 16 then ip
  else []

/-- `net.CIDRMask(ones, bits)`, byte by byte. -/
def cidrMaskGo : Nat → Nat → List Nat
  | 0, _ => []
  | l + 1, n =>
    if n ≥ 8 then 255 :: cidrMaskGo l (n - 8)
    else (255 - (255 / 2 ^ n)) :: cidrMaskGo l 0

/-- `net.CIDRMask`. -/
def cidrMask (ones bits : Nat) : List Nat :=
  if bits ≠ 32 ∧ bits ≠ 128 then []
  else if ones > bits then []
  else cidrMaskGo (bits / 8) ones

/-- `net.IP.Mask`: after the 4/16-byte normalisations, a bytewise AND
of equal-length slices. -/
def goMask (ip mask : List Nat) : List Nat :=
  let mask :=
    if mask.length = 16 ∧ ip.length = 4 ∧ (mask.take 12).all (· == 255)
    then mask.drop 12 else mask
  let ip :=
    if mask.length = 4 ∧ ip.length = 16 ∧ ip.take 12 = v4InV6Prefix
    then ip.drop 12 else ip
  if ip.length ≠ mask.length then []
  else List.zipWith (fun a b => a.land b) ip mask

/-- Hex digit character (lowercase), as in Go's `hexDigit` table. -/
def hexDigit (n : Nat) : Char :=
  if n < 10 then Char.ofNat (48 + n) else Char.ofNat (87 + n)

/-- Minimal lowercase hex digits of a 16-bit value (fuel-bounded
division recursion; four digits suffice). -/
def natToHexAux : Nat → Nat → List Char
  | 0, _ => []
  | fuel + 1, n => if n = 0 then [] else natToHexAux fuel (n / 16) ++ [hexDigit (n % 16)]

/-- `appendHex`: minimal lowercase hex of a group, `"0"` for zero. -/
def natToHex (n : Nat) : String :=
  if n = 0 then "0" else String.mk (natToHexAux 8 n)

/-- Go `hexString` (the `"?"`-prefixed fallback of `IP.String`). -/
def hexBytes : List Nat → List Char
  | [] => []
  | b :: r => hexDigit (b / 16) :: hexDigit (b % 16) :: hexBytes r

/-- Bytes to 16-bit groups, big-endian. -/
def bytesToGroups : List Nat → List Nat
  | a :: b :: r => (a * 256 + b) :: bytesToGroups r
  | _ => []

/-- Length of the leading run of zero groups. -/
def zeroRunLen : List Nat → Nat
  | g :: r => if g = 0 then 1 + zeroRunLen r else 0
  | [] => 0

/-- Scan for the leftmost longest zero run (strict improvement keeps
the leftmost; positions inside a run can only see shorter suffix runs,
so this matches Go's skipping scan in `IP.String`). -/
def bestZeroRunAux : List Nat → Nat → Nat → Nat → Nat × Nat
  | [], _, b0, bl => (b0, bl)
  | g :: r, i, b0, bl =>
    let rl := zeroRunLen (g :: r)
    if rl > bl then bestZeroRunAux r (i + 1) i rl
    else bestZeroRunAux r (i + 1) b0 bl

/-- The zero run `IP.String` abbreviates with `::` (group start and
one-past-end), if any: a `::` must cover at least two groups. -/
def bestZeroRun (gs : List Nat) : Option (Nat × Nat) :=
  let p := bestZeroRunAux gs 0 0 0
  if p.2 ≤ 1 then none else some (p.1, p.1 + p.2)

/-- The output loop of `IP.String` for the 16-byte hex form: groups
joined by `:`, with the chosen zero run rendered as `::` (group
indices `e0` inclusive to `e1` exclusive; `e0 = 9` when there is no
run).  Mirrors Go's loop, which after emitting `::` continues with the
group at `e1` and no separating colon. -/
def fmtV6Aux (gs : List Nat) (e0 e1 : Nat) : Nat → Nat → String → String
  | 0, _, acc => acc
  | fuel + 1, i, acc =>
    if i ≥ gs.length then acc
    else if i = e0 then
      let acc := acc ++ "::"
      if e1 ≥ gs.length then acc
      else fmtV6Aux gs e0 e1 fuel (e1 + 1) (acc ++ natToHex (gs.getD e1 0))
    else
      let acc := if i > 0 then acc ++ ":" else acc
      fmtV6Aux gs e0 e1 fuel (i + 1) (acc ++ natToHex (gs.getD i 0))

/-- `net.IP.String`. -/
def ipString (ip : List Nat) : String :=
  if ip.isEmpty then "<nil>"
  else
    match to4 ip with
    | [a, b, c, d] =>
      toString a ++ "." ++ toString b ++ "." ++ toString c ++ "." ++ toString d
    | _ =>
      if ip.length ≠ 16 then "?" ++ String.mk (hexBytes ip)
      else
        let gs := bytesToGroups ip
        match bestZeroRun gs with
        | none => fmtV6Aux gs 9 9 9 0 ""
        | some (e0, e1) => fmtV6Aux gs e0 e1 9 0 ""

/-! ## `ipv6ToCIDR` (lines 211–229) -/

/-- `ipv6ToCIDR`: parse, reject anything `To4` recognises as IPv4
(dotted quads and IPv4-mapped forms alike), reject parse failures via
the `To16`-of-`nil` check, then mask to the top 64 bits and format as
`<network>/64`. -/
def ipv6ToCIDR (ipv6 : String) : Except String String :=
  let maskSize : Nat := 64
  let ip := parseIP ipv6
  if ¬ (to4 ip).isEmpty then
    .error ("input is not an IPv6 address: " ++ ipv6)
  else
    let ip := to16 ip
    if ip.isEmpty then
      .error ("input is not an IPv6 address: " ++ ipv6)
    else
      .ok (ipString (goMask ip (cidrMask maskSize 128)) ++ "/" ++ toString maskSize)

/-! ## Package constants (lines 21–54)

The process-wide endpoint variables default to these constants; the
test-only override setters are not modelled (no claim concerns them),
so the endpoints appear at their initial values. -/

def providerCloudflare : String := "cloudflare"

def providerFastly : String := "fastly"

def providerCloudfront : String := "cloudfront"

def providerCustom : String := "custom"

def awsCloudfrontLabel : String := "CLOUDFRONT"

def defaultPollInterval : String := "300s"

def cloudflareIPv4Endpoint : String := "https://www.cloudflare.com/ips-v4/"

def cloudflareIPv6Endpoint : String := "https://www.cloudflare.com/ips-v6/"

def fastlyEndpoint : String := "https://api.fastly.com/public-ip-list"

def awsIPRangesEndpoint : String := "https://ip-ranges.amazonaws.com/ip-ranges.json"

/-- The `supportedProviders` set (a Go map keyed by name). -/
def supportedProviders : List String :=
  [providerCloudflare, providerFastly, providerCloudfront, providerCustom]

/-! ## `time.ParseDuration`

Modelled from the Go standard library.  The only departure: Go computes
the fractional contribution `f * (unit/scale)` in `float64`; here it is
exact integer arithmetic `f * unit / scale`, which can differ from the
float result only by sub-nanosecond rounding and never in sign or
zeroness. -/

/-- `time.leadingInt`: leading decimal digits, overflow-checked
against 2^63. -/
def leadingInt : List Char → Nat → Option (Nat × List Char)
  | [], x => some (x, [])
  | c :: rest, x =>
    if isDigitChar c then
      if x > 922337203685477580 then none
      else
        let x := x * 10 + (c.toNat - 48)
        if x > 9223372036854775808 then none
        else leadingInt rest x
    else some (x, c :: rest)

/-- `time.leadingFraction`: digits after the decimal point; once the
accumulator would overflow, further digits are consumed but ignored. -/
def leadingFraction : List Char → Nat → Nat → Bool → Nat × Nat × List Char
  | [], x, scale, _ => (x, scale, [])
  | c :: rest, x, scale, overflow =>
    if isDigitChar c then
      if overflow then leadingFraction rest x scale overflow
      else if x > 922337203685477580 then leadingFraction rest x scale true
      else
        let y := x * 10 + (c.toNat - 48)
        if y > 9223372036854775808 then leadingFraction rest x scale true
        else leadingFraction rest y (scale * 10) overflow
    else (x, scale, c :: rest)

/-- The unit scan of `time.ParseDuration`: everything up to the next
digit or dot is the unit name. -/
def scanUnit : List Char → List Char × List Char
  | [] => ([], [])
  | c :: rest =>
    if c = '.' ∨ isDigitChar c then ([], c :: rest)
    else
      let p := scanUnit rest
      (c :: p.1, p.2)

/-- `time.unitMap` (nanoseconds per unit; both micro signs accepted). -/
def unitValue (u : List Char) : Option Nat :=
  if u = "ns".toList then some 1
  else if u = "us".toList then some 1000
  else if u = "µs".toList then some 1000
  else if u = "μs".toList then some 1000
  else if u = "ms".toList then some 1000000
  else if u = "s".toList then some 1000000000
  else if u = "m".toList then some 60000000000
  else if u = "h".toList then some 3600000000000
  else none

/-- The main loop of `time.ParseDuration`: one
`[0-9]*(\.[0-9]*)?<unit>` item per iteration, accumulated into `d`
(nanoseconds).  Fuel bounds the iterations; every iteration that
recurses has consumed at least one character, so `length + 1` fuel
never runs out. -/
def durLoop : Nat → List Char → Nat → Option Nat
  | _, [], d => some d
  | 0, _ :: _, _ => none
  | fuel + 1, c :: cs, d =>
    if ¬ (c = '.' ∨ isDigitChar c) then none
    else
      match leadingInt (c :: cs) 0 with
      | none => none
      | some (v, s1) =>
        let pre := s1.length ≠ (c :: cs).length
        let step : Nat × Nat × List Char → Bool → Option Nat := fun t post =>
          let f := t.1
          let scale := t.2.1
          let s3 := t.2.2
          if ¬ pre ∧ ¬ post then none
          else
            match scanUnit s3 with
            | ([], _) => none
            | (u, rest) =>
              match unitValue u with
              | none => none
              | some unit =>
                if v > 9223372036854775808 / unit then none
                else
                  let v := v * unit
                  let v := if f > 0 then v + f * unit / scale else v
                  if f > 0 ∧ v > 9223372036854775808 then none
                  else
                    let d := d + v
                    if d > 9223372036854775808 then none
                    else durLoop fuel rest d
        match s1 with
        | '.' :: s2 =>
          let t := leadingFraction s2 0 1 false
          step t (t.2.2.length ≠ s2.length)
        | _ => step (0, 1, s1) false

/-- `time.ParseDuration`, in integer nanoseconds (`none` = parse
error). -/
def parseDuration (s : String) : Option Int :=
  let cs := s.toList
  let signed : Bool × List Char :=
    match cs with
    | '-' :: rest => (true, rest)
    | '+' :: rest => (false, rest)
    | rest => (false, rest)
  let neg := signed.1
  let cs := signed.2
  if cs = ['0'] then some 0
  else if cs.isEmpty then none
  else
    match durLoop (cs.length + 1) cs 0 with
    | none => none
    | some d =>
      if neg then some (-(d : Int))
      else if d > 9223372036854775807 then none
      else some (d : Int)

/-! ## Configuration and provider state (lines 58–151) -/

/-- The plugin `Config` (the `dynamic.IPStrategy` sub-object is
flattened into its two fields). -/
structure Config where
  provider : String
  pollInterval : String
  ipv4Resolver : String
  ipv6Resolver : String
  whitelistIPv6 : Bool
  additionalSourceRange : List String
  ipStrategyDepth : Int
  ipStrategyExcludedIPs : List String
deriving Repr, DecidableEq

/-- `CreateConfig`: the defaults. -/
def CreateConfig : Config where
  provider := ""
  pollInterval := defaultPollInterval
  ipv4Resolver := "https://api4.ipify.org/?format=text"
  ipv6Resolver := "https://api6.ipify.org/?format=text"
  whitelistIPv6 := false
  additionalSourceRange := []
  ipStrategyDepth := 0
  ipStrategyExcludedIPs := []

/-- The constructed `Provider` value.  The Go struct's `httpGet` field
(always `defaultHTTPGetter`) is effectful and is instead passed to the
fetch functions explicitly; the `cancel` handle belongs to the
scheduler and carries no data. -/
structure Provider where
  name : String
  providerName : String
  pollInterval : Int
  ipv4Resolver : String
  ipv6Resolver : String
  whitelistIPv6 : Bool
  additionalSourceRange : List String
  ipStrategyDepth : Int
  ipStrategyExcludedIPs : List String
deriving Repr, DecidableEq

/-- `normalizeProviderName` (lines 499–501). -/
def normalizeProviderName (name : String) : String :=
  goToLower (goTrimSpace name)

/-- The interval string `New` actually parses (lines 101–104): the
configured one, or the default when it is blank. -/
def effInterval (config : Config) : String :=
  if goTrimSpace config.pollInterval = "" then defaultPollInterval
  else config.pollInterval

/-- `New` (lines 100–142): default the blank interval, parse it,
normalise and validate the provider name, and check the custom
provider's resolver requirements.  The parsed interval's sign is not
inspected here. -/
def New (config : Config) (name : String) : Except String Provider :=
  let pollInterval := effInterval config
  match parseDuration pollInterval with
  | none => .error ("time: invalid duration " ++ pollInterval)
  | some pi =>
    let providerName := normalizeProviderName config.provider
    if providerName = "" then .error "provider is required"
    else if ¬ supportedProviders.contains providerName then
      .error ("unsupported provider \x22" ++ config.provider ++ "\x22")
    else if providerName = providerCustom ∧ goTrimSpace config.ipv4Resolver = "" then
      .error "custom provider requires an ipv4Resolver"
    else if providerName = providerCustom ∧
        (config.whitelistIPv6 ∧ goTrimSpace config.ipv6Resolver = "") then
      .error "custom provider requires an ipv6Resolver when whitelistIPv6 is true"
    else
      .ok
        { name := name
          providerName := providerName
          pollInterval := pi
          ipv4Resolver := config.ipv4Resolver
          ipv6Resolver := config.ipv6Resolver
          whitelistIPv6 := config.whitelistIPv6
          additionalSourceRange := config.additionalSourceRange
          ipStrategyDepth := config.ipStrategyDepth
          ipStrategyExcludedIPs := config.ipStrategyExcludedIPs }

/-- `Init` (lines 145–151): the only positivity check on the poll
interval. -/
def Init (p : Provider) : Except String Unit :=
  if p.pollInterval ≤ 0 then .error "poll interval must be greater than 0"
  else .ok ()

/-- The provider-field checks `New` performs after parsing the
interval, phrased as the spec's construction predicate has to be to
match the code: the provider is trimmed then lowercased before the
case-insensitive membership test, and the custom provider's resolvers
must be non-blank (non-empty after trimming), the IPv6 one only when
IPv6 inclusion is set. -/
def amendedC5Pred (c : Config) : Bool :=
  supportedProviders.contains (normalizeProviderName c.provider) &&
  (normalizeProviderName c.provider != providerCustom ||
    (goTrimSpace c.ipv4Resolver != "" &&
      (!c.whitelistIPv6 || goTrimSpace c.ipv6Resolver != "")))

/-- The construction-success predicate exactly as claim C5 words it:
the provider field compared case-insensitively (no trimming) against
the four identifiers, and non-empty (not merely non-blank) resolvers
for the user-defined provider. -/
def specC5Pred (c : Config) : Bool :=
  supportedProviders.contains (goToLower c.provider) &&
  (goToLower c.provider != providerCustom ||
    (c.ipv4Resolver != "" && (!c.whitelistIPv6 || c.ipv6Resolver != "")))

/-- Claim C1's IPv4-validity notion, from the spec's words: a
syntactically valid IPv4 address (dotted-quad form). -/
def specIsValidIPv4 (s : String) : Bool :=
  (parseIPv4Chars s.toList).isSome

/-- A configuration whose interval parses to the non-positive duration
zero (claim C2). -/
def c2Cfg : Config :=
  { CreateConfig with provider := "cloudflare", pollInterval := "0s" }

/-- A configuration whose provider has surrounding whitespace
(claim C5). -/
def c5CfgA : Config :=
  { CreateConfig with provider := " cloudflare", pollInterval := "1s" }

/-- A configuration whose custom IPv4 resolver is non-empty but blank
(claim C5). -/
def c5CfgB : Config :=
  { CreateConfig with
      provider := "custom", pollInterval := "1s", ipv4Resolver := " " }

/-! ## Provider fetch strategies (lines 292–440)

The injected `httpGetter` is a pure map from URL to body or error.
The two JSON providers take the decoded payload of their single fixed
endpoint directly (the composition of the HTTP GET and
`json.Unmarshal`), since the raw JSON bytes are otherwise
uninterpreted. -/

/-- The `fastly` response payload (`addresses`, `ipv6_addresses`). -/
structure FastlyPayload where
  addresses : List String
  ipv6Addresses : List String
deriving Repr, DecidableEq

/-- One record of the AWS `prefixes` array. -/
structure AwsV4Rec where
  ipPrefix : String
  service : String
deriving Repr, DecidableEq

/-- One record of the AWS `ipv6_prefixes` array. -/
structure AwsV6Rec where
  ipv6Prefix : String
  service : String
deriving Repr, DecidableEq

/-- The AWS `ip-ranges.json` payload. -/
structure AwsPayload where
  prefixes : List AwsV4Rec
  ipv6Prefixes : List AwsV6Rec
deriving Repr, DecidableEq

/-- A concrete AWS payload for the service-filter test instance: one
`CLOUDFRONT`-labelled IPv4 record, one with a different label, one
with the lowercase label (case-sensitivity), and one IPv6 record. -/
def cfExamplePayload : AwsPayload where
  prefixes :=
    [{ ipPrefix := "198.51.100.0/24", service := "CLOUDFRONT" },
     { ipPrefix := "203.0.113.0/24", service := "EC2" },
     { ipPrefix := "192.0.2.0/24", service := "cloudfront" }]
  ipv6Prefixes := [{ ipv6Prefix := "2001:db8::/32", service := "CLOUDFRONT" }]

/-- Everything a refresh can observe from the network: the raw-text
getter (cloudflare endpoints, custom resolvers) and the decoded JSON
payloads of the two fixed JSON endpoints. -/
structure FetchEnv where
  httpGet : String → Except String String
  fastlyDecode : Except String FastlyPayload
  awsDecode : Except String AwsPayload

/-- A concrete getter: every URL answers with one CIDR line. -/
def w8GetA : String → Except String String :=
  fun _ => .ok "198.51.100.0/24"

/-- A concrete getter agreeing with `w8GetA` except at the IPv6
endpoints, which fail. -/
def w8GetB : String → Except String String :=
  fun url =>
    if url = cloudflareIPv6Endpoint ∨ url = "r6x" then .error "down"
    else .ok "198.51.100.0/24"

/-- A concrete getter answering with a bare IPv4 address (the shape a
custom resolver returns). -/
def w8GetC : String → Except String String :=
  fun _ => .ok "192.0.2.123"

/-- A concrete fetch environment for witnesses. -/
def w10Env : FetchEnv where
  httpGet := w8GetA
  fastlyDecode := .ok { addresses := ["a"], ipv6Addresses := [] }
  awsDecode := .ok { prefixes := [{ ipPrefix := "b", service := "CLOUDFRONT" }],
                     ipv6Prefixes := [] }

/-- A concrete cloudflare provider with one static extra range. -/
def w10Prov : Provider where
  name := "t"
  providerName := "cloudflare"
  pollInterval := 300000000000
  ipv4Resolver := ""
  ipv6Resolver := ""
  whitelistIPv6 := false
  additionalSourceRange := ["10.0.0.0/8"]
  ipStrategyDepth := 0
  ipStrategyExcludedIPs := []

/-- `fetchCloudflareRanges` (lines 307–327). -/
def fetchCloudflareRanges (g : String → Except String String)
    (whitelistIPv6 : Bool) : Except String (List String) :=
  match g cloudflareIPv4Endpoint with
  | .error e => .error e
  | .ok body =>
    let ranges := parseLineList body
    if ranges.isEmpty then .error "cloudflare: empty IPv4 range list"
    else if whitelistIPv6 then
      match g cloudflareIPv6Endpoint with
      | .error e => .error e
      | .ok body6 => .ok (ranges ++ parseLineList body6)
    else .ok ranges

/-- `fetchFastlyRanges` (lines 329–354), from the decoded payload. -/
def fetchFastlyRanges (decoded : Except String FastlyPayload)
    (whitelistIPv6 : Bool) : Except String (List String) :=
  match decoded with
  | .error e => .error e
  | .ok payload =>
    let ranges := payload.addresses
    if ranges.isEmpty then .error "fastly: empty IPv4 addresses list"
    else if whitelistIPv6 then .ok (ranges ++ payload.ipv6Addresses)
    else .ok ranges

/-- The body of the IPv4 filter loop in `fetchCloudfrontRanges`. -/
def cfV4Step (ranges : List String) (rec : AwsV4Rec) : List String :=
  if rec.service = awsCloudfrontLabel then ranges ++ [goTrimSpace rec.ipPrefix]
  else ranges

/-- The body of the IPv6 filter loop in `fetchCloudfrontRanges`. -/
def cfV6Step (ranges : List String) (rec : AwsV6Rec) : List String :=
  if rec.service = awsCloudfrontLabel then ranges ++ [goTrimSpace rec.ipv6Prefix]
  else ranges

/-- `fetchCloudfrontRanges` (lines 356–397), from the decoded
payload: keep the records labelled `CLOUDFRONT`, IPv4 first, the IPv6
array only when enabled. -/
def fetchCloudfrontRanges (decoded : Except String AwsPayload)
    (whitelistIPv6 : Bool) : Except String (List String) :=
  match decoded with
  | .error e => .error e
  | .ok payload =>
    let ranges := payload.prefixes.foldl cfV4Step []
    if ranges.isEmpty then .error "cloudfront: empty IPv4 prefix set"
    else if whitelistIPv6 then .ok (payload.ipv6Prefixes.foldl cfV6Step ranges)
    else .ok ranges

/-- `fetchCustomRanges` (lines 399–440). -/
def fetchCustomRanges (g : String → Except String String)
    (ipv4Resolver ipv6Resolver : String) (whitelistIPv6 : Bool) :
    Except String (List String) :=
  if goTrimSpace ipv4Resolver = "" then
    .error "custom provider requires an ipv4Resolver"
  else
    match g ipv4Resolver with
    | .error e => .error e
    | .ok body =>
      let ipv4 := goTrimSpace body
      if parseIP ipv4 = [] then .error "custom provider: invalid IPv4 response"
      else
        let ranges := [ipv4]
        if whitelistIPv6 then
          if goTrimSpace ipv6Resolver = "" then
            .error "custom provider requires an ipv6Resolver when whitelistIPv6 is true"
          else
            match g ipv6Resolver with
            | .error e => .error e
            | .ok body6 =>
              let ipv6 := goTrimSpace body6
              if parseIP ipv6 = [] then
                .error "custom provider: invalid IPv6 response"
              else
                match ipv6ToCIDR ipv6 with
                | .error e => .error e
                | .ok ipv6CIDR => .ok (ranges ++ [ipv6CIDR])
        else .ok ranges

/-- `fetchProviderRanges` (lines 292–305): dispatch on the normalised
provider name. -/
def fetchProviderRanges (env : FetchEnv) (p : Provider) :
    Except String (List String) :=
  if p.providerName = providerCloudflare then
    fetchCloudflareRanges env.httpGet p.whitelistIPv6
  else if p.providerName = providerFastly then
    fetchFastlyRanges env.fastlyDecode p.whitelistIPv6
  else if p.providerName = providerCloudfront then
    fetchCloudfrontRanges env.awsDecode p.whitelistIPv6
  else if p.providerName = providerCustom then
    fetchCustomRanges env.httpGet p.ipv4Resolver p.ipv6Resolver p.whitelistIPv6
  else .error ("unsupported provider \x22" ++ p.providerName ++ "\x22")

/-! ## Aggregation and emission (lines 187–290) -/

/-- Lines 282–289 of `buildSourceRanges`: statically configured extras
first, then the provider ranges; an empty combination is fatal. -/
def aggregateRanges (additionalSourceRange providerRanges : List String) :
    Except String (List String) :=
  let sourceRange := additionalSourceRange ++ providerRanges
  if sourceRange.isEmpty then .error "no source ranges resolved"
  else .ok sourceRange

/-- `buildSourceRanges` (lines 276–290). -/
def buildSourceRanges (env : FetchEnv) (p : Provider) :
    Except String (List String) :=
  match fetchProviderRanges env p with
  | .error e => .error e
  | .ok providerRanges => aggregateRanges p.additionalSourceRange providerRanges

/-- The strategy block of the generated middleware. -/
structure IPStrategy where
  depth : Int
  excludedIPs : List String
deriving Repr, DecidableEq

/-- The generated `ipWhiteList` middleware body. -/
structure IPWhiteList where
  sourceRange : List String
  ipStrategy : IPStrategy
deriving Repr, DecidableEq

/-- The dynamic configuration envelope.  Only the HTTP middleware
table carries information; the router/service/TLS/UDP tables the code
creates are all empty maps, so they are not modelled as fields. -/
structure Configuration where
  httpMiddlewares : List (String × IPWhiteList)
deriving Repr, DecidableEq

/-- `generateConfiguration` (lines 231–269). -/
def generateConfiguration (env : FetchEnv) (p : Provider) :
    Except String Configuration :=
  match buildSourceRanges env p with
  | .error e => .error e
  | .ok sourceRange =>
    .ok
      { httpMiddlewares :=
          [("public_ipwhitelist",
            { sourceRange := sourceRange
              ipStrategy :=
                { depth := p.ipStrategyDepth
                  excludedIPs := p.ipStrategyExcludedIPs } })] }

/-- `dynamic.JSONPayload`, the value sent on the delivery channel. -/
structure JSONPayload where
  configuration : Configuration
deriving Repr, DecidableEq

/-- `emitConfiguration` (lines 187–195).  The delivery channel is
modelled as the list of values delivered so far: a failed refresh logs
and returns without sending, leaving the history untouched; a
successful one sends exactly one wrapped configuration. -/
def emitConfiguration (env : FetchEnv) (p : Provider)
    (delivered : List JSONPayload) : List JSONPayload :=
  match generateConfiguration env p with
  | .error _ => delivered
  | .ok configuration => delivered ++ [{ configuration := configuration }]

/-! Characterisation of the fold as map-then-filter. -/

theorem lineStep_foldl (acc : List String) (ls : List String) :
    ls.foldl lineStep acc = acc ++ ls.foldl lineStep [] := by
  induction ls generalizing acc with
  | nil => simp
  | cons l ls ih =>
    simp only [List.foldl_cons]
    rw [ih, ih (lineStep [] l)]
    simp [lineStep]
    split <;> simp

theorem parseLineList_eq_filter_map (data : String) :
    parseLineList data =
      ((splitLines data).map goTrimSpace).filter (fun l => l ≠ "") := by
  unfold parseLineList
  induction splitLines data with
  | nil => rfl
  | cons l ls ih =>
    simp only [List.foldl_cons, List.map_cons]
    rw [lineStep_foldl]
    simp only [lineStep]
    split <;> simp_all [List.filter_cons]

/-! The cloudfront filter loops as filter-then-map. -/

theorem cfV4_foldl (rs : List AwsV4Rec) (acc : List String) :
    rs.foldl cfV4Step acc =
      acc ++ (rs.filter (fun r => r.service = awsCloudfrontLabel)).map
        (fun r => goTrimSpace r.ipPrefix) := by
  induction rs generalizing acc with
  | nil => simp
  | cons r rs ih =>
    simp only [List.foldl_cons, List.filter_cons]
    rw [ih]
    unfold cfV4Step
    split <;> simp_all

theorem cfV6_foldl (rs : List AwsV6Rec) (acc : List String) :
    rs.foldl cfV6Step acc =
      acc ++ (rs.filter (fun r => r.service = awsCloudfrontLabel)).map
        (fun r => goTrimSpace r.ipv6Prefix) := by
  induction rs generalizing acc with
  | nil => simp
  | cons r rs ih =>
    simp only [List.foldl_cons, List.filter_cons]
    rw [ih]
    unfold cfV6Step
    split <;> simp_all

/-! Every successful parse yields a 16-byte address: the IPv6 loop
maintains at most eight groups with any `::` position inside them, and
finalisation pads to exactly eight. -/

theorem groupsToBytes_length (gs : List Nat) :
    (groupsToBytes gs).length = 2 * gs.length := by
  induction gs with
  | nil => rfl
  | cons g r ih =>
    simp only [groupsToBytes, List.length_cons, ih]
    omega

theorem v6Finalize_length (gs : List Nat) (ell : Option Nat) (s : List Char)
    (res : List Nat) (hell : ∀ e, ell = some e → e ≤ gs.length)
    (hlen : gs.length ≤ 8) (h : v6Finalize gs ell s = some res) :
    res.length = 8 := by
  unfold v6Finalize at h
  split at h
  · exact absurd h (by simp)
  · split at h
    · cases ell with
      | none => exact absurd h (by simp)
      | some e =>
        have he := hell e rfl
        simp only [Option.some.injEq] at h
        subst h
        simp only [List.length_append, List.length_take, List.length_replicate,
          List.length_drop]
        omega
    · cases ell with
      | some e => exact absurd h (by simp)
      | none =>
        simp only [Option.some.injEq] at h
        subst h
        omega

theorem v6Loop_length (fuel : Nat) :
    ∀ (gs : List Nat) (ell : Option Nat) (s : List Char) (res : List Nat),
      (∀ e, ell = some e → e ≤ gs.length) → gs.length ≤ 8 →
      v6Loop fuel gs ell s = some res → res.length = 8 := by
  induction fuel with
  | zero =>
    intro gs ell s res hell hlen h
    unfold v6Loop at h
    split at h
    · exact absurd h (by simp)
    · exact v6Finalize_length gs ell s res hell hlen h
  | succ fuel ih =>
    intro gs ell s res hell hlen h
    unfold v6Loop at h
    split at h
    case isFalse => exact v6Finalize_length gs ell s res hell hlen h
    case isTrue hlt =>
      split at h
      · exact absurd h (by simp)
      · split at h
        · exact absurd h (by simp)
        · split at h
          · -- embedded IPv4 tail
            split at h
            · exact absurd h (by simp)
            · split at h
              · exact absurd h (by simp)
              · split at h
                · exact v6Finalize_length _ _ _ res
                    (by
                      intro e he
                      have hb := hell _ he
                      simp only [List.length_append, List.length_cons,
                        List.length_nil]
                      omega)
                    (by
                      simp only [List.length_append, List.length_cons,
                        List.length_nil]
                      omega) h
                · exact absurd h (by simp)
          · split at h
            · exact v6Finalize_length _ _ _ res
                (by
                  intro e he
                  have hb := hell _ he
                  simp only [List.length_append, List.length_cons,
                    List.length_nil]
                  omega)
                (by
                  simp only [List.length_append, List.length_cons,
                    List.length_nil]
                  omega) h
            · split at h
              · exact absurd h (by simp)
              · -- the compiled term matches on `ell` before the inner ifs
                split at h
                · -- `ell` already set: a second `::` or a plain
                  -- continuation with the ellipsis carried along
                  dsimp only at h
                  split at h
                  · exact absurd h (by simp)
                  · split at h
                    · exact absurd h (by simp)
                    · exact ih _ _ _ res
                        (by
                          intro e he
                          have hb := hell _ he
                          simp only [List.length_append, List.length_cons,
                            List.length_nil]
                          omega)
                        (by
                          simp only [List.length_append, List.length_cons,
                            List.length_nil]
                          omega) h
                · -- no ellipsis yet
                  dsimp only at h
                  split at h
                  · exact absurd h (by simp)
                  · split at h
                    · split at h
                      · exact v6Finalize_length _ _ _ res
                          (by
                            intro e he
                            simp only [Option.some.injEq] at he
                            omega)
                          (by
                            simp only [List.length_append, List.length_cons,
                              List.length_nil]
                            omega) h
                      · exact ih _ _ _ res
                          (by
                            intro e he
                            simp only [Option.some.injEq] at he
                            omega)
                          (by
                            simp only [List.length_append, List.length_cons,
                              List.length_nil]
                            omega) h
                    · exact ih _ _ _ res
                        (by
                          intro e he
                          have hb := hell _ he
                          simp only [List.length_append, List.length_cons,
                            List.length_nil]
                          omega)
                        (by
                          simp only [List.length_append, List.length_cons,
                            List.length_nil]
                          omega) h

theorem parseIPv6Chars_length (cs : List Char) (gs : List Nat)
    (h : parseIPv6Chars cs = some gs) : gs.length = 8 := by
  unfold parseIPv6Chars at h
  split at h
  · split at h
    · simp only [Option.some.injEq] at h
      subst h
      rfl
    · exact v6Loop_length 9 [] (some 0) _ gs (by intro e he; simp at he; omega)
        (by simp) h
  · exact v6Loop_length 9 [] none _ gs (by intro e he; simp at he) (by simp) h

/-- A parsed address is `nil` or exactly 16 bytes. -/
theorem parseIP_len (s : String) : parseIP s = [] ∨ (parseIP s).length = 16 := by
  unfold parseIP
  split
  · split
    · right; rfl
    · left; rfl
  · rename_i heq
    split
    · rename_i gs hgs
      right
      rw [groupsToBytes_length, parseIPv6Chars_length _ gs hgs]
    · left; rfl
  · left; rfl

theorem string_append_assoc (a b c : String) : a ++ b ++ c = a ++ (b ++ c) := by
  cases a with | mk da =>
  cases b with | mk db =>
  cases c with | mk dc =>
  show String.mk (da ++ db ++ dc) = String.mk (da ++ (db ++ dc))
  rw [List.append_assoc]

/-- C3: `ipv6ToCIDR` maps every input that parses as a non-IPv4 address
(every syntactically valid IPv6 address proper) to its top-64-bit
network followed by `"/64"`, and rejects with the invalid-address error
every input that fails to parse or parses as IPv4 — IPv4-mapped
dual representations included; in particular the two spec examples. -/
theorem claim_C3 :
    (∀ s : String, parseIP s ≠ [] → to4 (parseIP s) = [] →
      ipv6ToCIDR s =
        .ok (ipString (goMask (parseIP s) (cidrMask 64 128)) ++ "/64")) ∧
    (∀ s : String, parseIP s = [] ∨ to4 (parseIP s) ≠ [] →
      ipv6ToCIDR s = .error ("input is not an IPv6 address: " ++ s)) ∧
    ipv6ToCIDR "1234:1234:1234:1234:1234:1234:1234:1234" =
      .ok "1234:1234:1234:1234::/64" ∧
    ipv6ToCIDR "203.0.113.5" =
      .error "input is not an IPv6 address: 203.0.113.5" ∧
    ipv6ToCIDR "::ffff:203.0.113.5" =
      .error "input is not an IPv6 address: ::ffff:203.0.113.5" := by
  refine ⟨?_, ?_, by rfl, by rfl, by rfl⟩
  · intro s hne h4
    have hlen : (parseIP s).length = 16 := (parseIP_len s).resolve_left hne
    have h16 : to16 (parseIP s) = parseIP s := by
      unfold to16
      rw [if_neg (by omega), if_pos hlen]
    have hne2 : (parseIP s).isEmpty = false := by
      cases hp : parseIP s
      · rw [hp] at hlen
        exact absurd hlen (by simp)
      · rfl
    unfold ipv6ToCIDR
    dsimp only
    rw [h4, if_neg (by simp), h16, hne2, if_neg (by simp)]
    rw [string_append_assoc]
    rfl
  · intro s h
    unfold ipv6ToCIDR
    rcases h with hnil | h4
    · rw [hnil]
      rfl
    · rw [if_pos (by simp [List.isEmpty_iff, h4])]

/-- Witness for C3: both universal parts applied at concrete inputs
(one valid IPv6 address, one IPv4-mapped dual representation). -/
theorem claim_C3_witness :
    (parseIP "2001:db8::1" ≠ [] ∧ to4 (parseIP "2001:db8::1") = [] ∧
      ipv6ToCIDR "2001:db8::1" =
        .ok (ipString (goMask (parseIP "2001:db8::1") (cidrMask 64 128)) ++ "/64")) ∧
    (to4 (parseIP "::ffff:1.2.3.4") ≠ [] ∧
      ipv6ToCIDR "::ffff:1.2.3.4" =
        .error ("input is not an IPv6 address: " ++ "::ffff:1.2.3.4")) :=
  ⟨⟨by decide, by decide, claim_C3.1 "2001:db8::1" (by decide) (by decide)⟩,
   ⟨by decide, claim_C3.2.1 "::ffff:1.2.3.4" (Or.inr (by decide))⟩⟩

/-- C7: for every input, the line-list parser splits on newline, trims
whitespace from each line, drops lines that become empty and preserves
the order of the rest; on `"198.51.100.0/24\n203.0.113.0/25\n\n"` it
yields exactly `["198.51.100.0/24", "203.0.113.0/25"]`. -/
theorem claim_C7 :
    (∀ data : String,
      parseLineList data =
        ((splitLines data).map goTrimSpace).filter (fun l => l ≠ "")) ∧
    parseLineList "198.51.100.0/24\n203.0.113.0/25\n\n" =
      ["198.51.100.0/24", "203.0.113.0/25"] :=
  ⟨parseLineList_eq_filter_map, by rfl⟩

/-- C4: the aggregated list is always the static extras followed by the
provider ranges in order, the empty-combination case failing with the
no-ranges-resolved error; `buildSourceRanges` is exactly this
aggregation applied to the provider fetch result (provider errors
propagate unchanged). -/
theorem claim_C4 :
    (∀ add pr : List String,
      aggregateRanges add pr =
        if (add ++ pr).isEmpty then
          Except.error "no source ranges resolved"
        else Except.ok (add ++ pr)) ∧
    (∀ (env : FetchEnv) (p : Provider),
      buildSourceRanges env p =
        (fetchProviderRanges env p).bind
          (fun pr => aggregateRanges p.additionalSourceRange pr)) := by
  constructor
  · intro add pr
    rfl
  · intro env p
    unfold buildSourceRanges
    cases fetchProviderRanges env p <;> rfl

/-- C9: a value is sent on the delivery channel iff the refresh
succeeded: the delivered history is extended by exactly the wrapped
fresh configuration on success and is returned untouched on error, so
the count grows iff `generateConfiguration` returned `ok`. -/
theorem claim_C9 :
    ∀ (env : FetchEnv) (p : Provider) (delivered : List JSONPayload),
      (emitConfiguration env p delivered =
        delivered ++
          (match generateConfiguration env p with
            | .ok c => [{ configuration := c }]
            | .error _ => [])) ∧
      (emitConfiguration env p delivered).length =
        delivered.length +
          (if (generateConfiguration env p).isOk then 1 else 0) := by
  intro env p delivered
  unfold emitConfiguration
  cases generateConfiguration env p <;> simp [Except.isOk, Except.toBool]

/-- C6: the cloudfront parse retains exactly the records whose service
label equals `"CLOUDFRONT"` (case-sensitively), filtering the IPv4 and
IPv6 arrays separately and appending the IPv6 part only when the
IPv6-inclusion flag is set; on a payload with one matching, one
differently-labelled and one lowercase-labelled IPv4 record the IPv4
part has length exactly 1. -/
theorem claim_C6 :
    (∀ (pl : AwsPayload) (w : Bool),
      fetchCloudfrontRanges (.ok pl) w =
        (let v4 := (pl.prefixes.filter (fun r => r.service = awsCloudfrontLabel)).map
            (fun r => goTrimSpace r.ipPrefix)
         let v6 := (pl.ipv6Prefixes.filter (fun r => r.service = awsCloudfrontLabel)).map
            (fun r => goTrimSpace r.ipv6Prefix)
         if v4.isEmpty then Except.error "cloudfront: empty IPv4 prefix set"
         else Except.ok (v4 ++ if w then v6 else []))) ∧
    (((cfExamplePayload.prefixes.filter
        (fun r => r.service = awsCloudfrontLabel)).map
        (fun r => goTrimSpace r.ipPrefix)).length = 1 ∧
      fetchCloudfrontRanges (.ok cfExamplePayload) false =
        .ok ["198.51.100.0/24"] ∧
      fetchCloudfrontRanges (.ok cfExamplePayload) true =
        .ok ["198.51.100.0/24", "2001:db8::/32"]) := by
  constructor
  · intro pl w
    simp only [fetchCloudfrontRanges]
    rw [cfV4_foldl, cfV6_foldl]
    simp only [List.nil_append]
    split
    · rfl
    · cases w <;> simp
  · exact ⟨by rfl, by rfl, by rfl⟩

/-- C1 counterexample: the custom provider's IPv4-resolver validation
is `net.ParseIP`, which accepts both address families, so the trimmed
response `"2001:db8::1"` — not a syntactically valid IPv4 address —
does not make the fetch fail; it is returned as the range. -/
theorem claim_C1_counterexample :
    specIsValidIPv4 "2001:db8::1" = false ∧
    fetchCustomRanges (fun _ => .ok "2001:db8::1") "resolver4" "" false =
      .ok ["2001:db8::1"] :=
  ⟨by rfl, by rfl⟩

/-- C1 (amended): the custom provider's IPv4-resolver response is
trimmed of surrounding whitespace and must parse as an IP address of
either family (`net.ParseIP`); for every body whose trimmed content
does not parse, the fetch fails with the invalid-response error, and
on success the first range is exactly the bare trimmed string (no
`/32` suffix appended). -/
theorem claim_C1 :
    ∀ (g : String → Except String String) (r4 r6 : String) (w : Bool)
      (body : String),
      goTrimSpace r4 ≠ "" → g r4 = .ok body →
      ((parseIP (goTrimSpace body) = [] →
        fetchCustomRanges g r4 r6 w =
          .error "custom provider: invalid IPv4 response") ∧
       (∀ rs, fetchCustomRanges g r4 r6 w = .ok rs →
        parseIP (goTrimSpace body) ≠ [] ∧
        rs.head? = some (goTrimSpace body))) := by
  intro g r4 r6 w body hr4 hg
  constructor
  · intro hnil
    unfold fetchCustomRanges
    rw [if_neg hr4, hg]
    dsimp only
    rw [if_pos hnil]
  · intro rs hok
    unfold fetchCustomRanges at hok
    rw [if_neg hr4, hg] at hok
    dsimp only at hok
    by_cases hnil : parseIP (goTrimSpace body) = []
    · rw [if_pos hnil] at hok
      exact absurd hok (by simp)
    · refine ⟨hnil, ?_⟩
      rw [if_neg hnil] at hok
      split at hok
      · -- IPv6 inclusion on: success still starts with the IPv4 entry
        split at hok
        · simp at hok
        · split at hok
          · simp at hok
          · split at hok
            · simp at hok
            · split at hok
              · simp at hok
              · simp only [Except.ok.injEq] at hok
                subst hok
                rfl
      · simp only [Except.ok.injEq] at hok
        subst hok
        rfl

/-- Witness for C1: the amended theorem applied at a concrete
non-parsing body and at a concrete whitespace-wrapped IPv4 body. -/
theorem claim_C1_witness :
    fetchCustomRanges (fun _ => .ok "nonsense") "r" "" false =
      .error "custom provider: invalid IPv4 response" ∧
    (["192.0.2.123"] : List String).head? =
      some (goTrimSpace " 192.0.2.123 ") :=
  ⟨(claim_C1 (fun _ => .ok "nonsense") "r" "" false "nonsense"
      (by decide) rfl).1 (by decide),
   ((claim_C1 (fun _ => .ok " 192.0.2.123 ") "r" "" false " 192.0.2.123 "
      (by decide) rfl).2 ["192.0.2.123"] (by rfl)).2⟩

/-- C2 counterexample: `"0s"` parses to the non-positive duration
zero, yet `New` succeeds on a configuration carrying it, and the
non-positivity is surfaced afterwards by `Init` — a post-construction
failure. -/
theorem claim_C2_counterexample :
    parseDuration "0s" = some 0 ∧
    (New c2Cfg "t").isOk = true ∧
    (New c2Cfg "t").map Init =
      .ok (.error "poll interval must be greater than 0") :=
  ⟨by rfl, by rfl, by rfl⟩

/-- C2 (amended): `New` validates only the syntax of the interval; a
configuration whose interval parses to a non-positive duration (with
the provider checks passing) is constructed successfully, and the
non-positive interval is rejected post-construction by `Init`. -/
theorem claim_C2 :
    ∀ (c : Config) (name : String) (d : Int),
      parseDuration (effInterval c) = some d → d ≤ 0 →
      amendedC5Pred c = true →
      ∃ p, New c name = .ok p ∧ p.pollInterval = d ∧
        Init p = .error "poll interval must be greater than 0" := by
  intro c name d hd hneg hpred
  unfold amendedC5Pred at hpred
  simp only [Bool.and_eq_true, Bool.or_eq_true, bne_iff_ne, ne_eq,
    Bool.not_eq_true'] at hpred
  obtain ⟨hmem, hrest⟩ := hpred
  have hne0 : normalizeProviderName c.provider ≠ "" := by
    intro h0
    rw [h0] at hmem
    exact absurd hmem (by decide)
  unfold New
  dsimp only
  rw [hd]
  dsimp only
  rw [if_neg hne0, if_neg (not_not_intro hmem)]
  rw [if_neg (by
    rintro ⟨hc, h4⟩
    rcases hrest with hrest | ⟨h4n, _⟩
    · exact hrest hc
    · exact h4n h4)]
  rw [if_neg (by
    rintro ⟨hc, hw, h6⟩
    rcases hrest with hrest | ⟨_, h6n⟩
    · exact hrest hc
    · rcases h6n with h6n | h6n
      · rw [hw] at h6n
        exact absurd h6n (by simp)
      · exact h6n h6)]
  refine ⟨_, rfl, rfl, ?_⟩
  unfold Init
  rw [if_pos hneg]

/-- Witness for C2: the amended theorem applied at the concrete
zero-interval configuration. -/
theorem claim_C2_witness :
    ∃ p, New c2Cfg "test" = .ok p ∧ p.pollInterval = 0 ∧
      Init p = .error "poll interval must be greater than 0" :=
  claim_C2 c2Cfg "test" 0 (by rfl) (by decide) (by rfl)

/-- C5 counterexample: with valid intervals, `New` succeeds on a
provider field `" cloudflare"` that is not case-insensitively equal to
any identifier (the code trims first), and fails on a custom
configuration whose IPv4 resolver `" "` is non-empty (the code
requires it non-blank) — both directions of the claimed equivalence
fail. -/
theorem claim_C5_counterexample :
    (parseDuration (effInterval c5CfgA) = some 1000000000 ∧
      (New c5CfgA "t").isOk = true ∧ specC5Pred c5CfgA = false) ∧
    (parseDuration (effInterval c5CfgB) = some 1000000000 ∧
      (New c5CfgB "t").isOk = false ∧ specC5Pred c5CfgB = true) :=
  ⟨⟨by rfl, by rfl, by rfl⟩, ⟨by rfl, by rfl, by rfl⟩⟩

/-- C5 (amended): for every configuration whose interval is valid,
construction succeeds exactly when the provider field, trimmed of
surrounding whitespace and compared case-insensitively, is one of the
four identifiers and, for the user-defined provider, the IPv4 resolver
is non-blank and the IPv6 resolver is non-blank whenever IPv6
inclusion is set. -/
theorem claim_C5 :
    ∀ (c : Config) (name : String),
      (parseDuration (effInterval c)).isSome = true →
      (New c name).isOk = amendedC5Pred c := by
  intro c name hd
  match hp : parseDuration (effInterval c) with
  | none =>
    rw [hp] at hd
    exact absurd hd (by simp)
  | some pi =>
    unfold New
    dsimp only
    rw [hp]
    dsimp only
    unfold amendedC5Pred
    by_cases h1 : normalizeProviderName c.provider = ""
    · rw [if_pos h1, h1]
      have : supportedProviders.contains "" = false := by decide
      rw [this, Bool.false_and]
      rfl
    · rw [if_neg h1]
      by_cases h2 : supportedProviders.contains (normalizeProviderName c.provider) = true
      · rw [if_neg (not_not_intro h2), h2, Bool.true_and]
        by_cases h3 : normalizeProviderName c.provider = providerCustom
        · by_cases h4 : goTrimSpace c.ipv4Resolver = ""
          · rw [if_pos ⟨h3, h4⟩, h3, h4]
            simp [Except.isOk, Except.toBool]
          · rw [if_neg (by rintro ⟨_, hh⟩; exact h4 hh)]
            by_cases h5 : c.whitelistIPv6 = true ∧ goTrimSpace c.ipv6Resolver = ""
            · rw [if_pos ⟨h3, h5.1, h5.2⟩, h3, h5.1, h5.2]
              simp [Except.isOk, Except.toBool]
            · rw [if_neg (by rintro ⟨_, hw, h6⟩; exact h5 ⟨hw, h6⟩)]
              rw [h3]
              have hb4 : (goTrimSpace c.ipv4Resolver != "") = true := by
                simp [bne_iff_ne, h4]
              have hb6 :
                  (!c.whitelistIPv6 || goTrimSpace c.ipv6Resolver != "") = true := by
                rcases not_and_or.mp h5 with hw | h6
                · have hw' : c.whitelistIPv6 = false := by
                    cases hb : c.whitelistIPv6
                    · rfl
                    · exact absurd hb hw
                  rw [hw']
                  rfl
                · simp [bne_iff_ne, h6]
              rw [hb4, hb6, bne_self_eq_false]
              rfl
        · rw [if_neg (by rintro ⟨hc, _⟩; exact h3 hc),
            if_neg (by rintro ⟨hc, _⟩; exact h3 hc)]
          have hb : (normalizeProviderName c.provider != providerCustom) = true := by
            simp [bne_iff_ne, h3]
          rw [hb, Bool.true_or]
          rfl
      · rw [if_pos h2]
        have : supportedProviders.contains (normalizeProviderName c.provider) = false :=
          Bool.not_eq_true _ ▸ (by simpa using h2)
        rw [this, Bool.false_and]
        rfl

/-- Witness for C5: the amended equivalence applied at a concrete
mixed-case configuration. -/
theorem claim_C5_witness :
    (New { CreateConfig with provider := "Fastly", pollInterval := "2m" } "t").isOk =
      amendedC5Pred { CreateConfig with provider := "Fastly", pollInterval := "2m" } :=
  claim_C5 _ "t" (by rfl)

/-! Success shapes of the four fetch strategies: a successful fetch is
always a non-empty IPv4-derived part followed by the (possibly empty)
IPv6-derived part. -/

theorem cloudflare_ok_shape (g : String → Except String String) (w : Bool)
    (rs : List String) (h : fetchCloudflareRanges g w = .ok rs) :
    ∃ b4, g cloudflareIPv4Endpoint = .ok b4 ∧ parseLineList b4 ≠ [] ∧
      ∃ v6, rs = parseLineList b4 ++ v6 ∧
        (w = false → v6 = []) ∧
        (w = true → ∃ b6, g cloudflareIPv6Endpoint = .ok b6 ∧
          v6 = parseLineList b6) := by
  unfold fetchCloudflareRanges at h
  split at h
  · simp at h
  · rename_i body hbody
    dsimp only at h
    split at h
    · simp at h
    · rename_i hne
      refine ⟨body, hbody, by simpa [List.isEmpty_iff] using hne, ?_⟩
      split at h
      · rename_i hw
        split at h
        · simp at h
        · rename_i body6 hbody6
          simp only [Except.ok.injEq] at h
          exact ⟨parseLineList body6, h.symm,
            fun hf => absurd hw (by rw [hf]; simp),
            fun _ => ⟨body6, hbody6, rfl⟩⟩
      · rename_i hw
        simp only [Except.ok.injEq] at h
        exact ⟨[], by rw [← h, List.append_nil], fun _ => rfl,
          fun ht => absurd ht hw⟩

theorem fastly_ok_shape (pl : FastlyPayload) (w : Bool) (rs : List String)
    (h : fetchFastlyRanges (.ok pl) w = .ok rs) :
    pl.addresses ≠ [] ∧
    rs = pl.addresses ++ (if w then pl.ipv6Addresses else []) := by
  unfold fetchFastlyRanges at h
  dsimp only at h
  split at h
  · simp at h
  · rename_i hne
    refine ⟨by simpa [List.isEmpty_iff] using hne, ?_⟩
    split at h
    · rename_i hw
      simp only [Except.ok.injEq] at h
      rw [← h, if_pos hw]
    · rename_i hw
      simp only [Except.ok.injEq] at h
      rw [← h, if_neg hw, List.append_nil]

theorem cloudfront_ok_shape (pl : AwsPayload) (w : Bool) (rs : List String)
    (h : fetchCloudfrontRanges (.ok pl) w = .ok rs) :
    (pl.prefixes.filter (fun r => r.service = awsCloudfrontLabel)) ≠ [] ∧
    rs = (pl.prefixes.filter (fun r => r.service = awsCloudfrontLabel)).map
        (fun r => goTrimSpace r.ipPrefix) ++
      (if w then (pl.ipv6Prefixes.filter
          (fun r => r.service = awsCloudfrontLabel)).map
          (fun r => goTrimSpace r.ipv6Prefix)
       else []) := by
  unfold fetchCloudfrontRanges at h
  dsimp only at h
  rw [cfV4_foldl] at h
  simp only [List.nil_append] at h
  split at h
  · simp at h
  · rename_i hne
    refine ⟨by
      intro hf
      rw [hf] at hne
      simp at hne, ?_⟩
    split at h
    · rename_i hw
      rw [cfV6_foldl] at h
      simp only [Except.ok.injEq] at h
      rw [← h, if_pos hw]
    · rename_i hw
      simp only [Except.ok.injEq] at h
      rw [← h, if_neg hw, List.append_nil]

theorem custom_ok_shape (g : String → Except String String)
    (r4 r6 : String) (w : Bool) (rs : List String)
    (h : fetchCustomRanges g r4 r6 w = .ok rs) :
    ∃ b4, g r4 = .ok b4 ∧ parseIP (goTrimSpace b4) ≠ [] ∧
      ∃ v6, rs = [goTrimSpace b4] ++ v6 ∧
        (w = false → v6 = []) ∧
        (w = true → ∃ b6 c6, g r6 = .ok b6 ∧
          ipv6ToCIDR (goTrimSpace b6) = .ok c6 ∧ v6 = [c6]) := by
  unfold fetchCustomRanges at h
  split at h
  · simp at h
  · split at h
    · simp at h
    · rename_i body hbody
      dsimp only at h
      split at h
      · simp at h
      · rename_i hip
        refine ⟨body, hbody, hip, ?_⟩
        split at h
        · rename_i hw
          split at h
          · simp at h
          · split at h
            · simp at h
            · rename_i body6 hbody6
              split at h
              · simp at h
              · split at h
                · simp at h
                · rename_i c6 hc6
                  simp only [Except.ok.injEq] at h
                  exact ⟨[c6], h.symm,
                    fun hf => absurd hw (by rw [hf]; simp),
                    fun _ => ⟨body6, c6, hbody6, hc6, rfl⟩⟩
        · rename_i hw
          simp only [Except.ok.injEq] at h
          exact ⟨[], by rw [← h, List.append_nil], fun _ => rfl,
            fun ht => absurd ht hw⟩

/-- C10: no provider strategy ever succeeds with an empty list — every
successful fetch consists of a non-empty IPv4-derived prefix followed
by the IPv6-derived entries (present only under the IPv6 flag) — and
consequently aggregation after a successful fetch always succeeds with
the static ranges prepended, never hitting the empty-combination
error. -/
theorem claim_C10 :
    (∀ (env : FetchEnv) (p : Provider) (rs : List String),
      fetchProviderRanges env p = .ok rs →
      rs ≠ [] ∧
      buildSourceRanges env p = .ok (p.additionalSourceRange ++ rs)) ∧
    (∀ g w rs, fetchCloudflareRanges g w = .ok rs →
      ∃ b4, g cloudflareIPv4Endpoint = .ok b4 ∧ parseLineList b4 ≠ [] ∧
        ∃ v6, rs = parseLineList b4 ++ v6 ∧
          (w = false → v6 = []) ∧
          (w = true → ∃ b6, g cloudflareIPv6Endpoint = .ok b6 ∧
            v6 = parseLineList b6)) ∧
    (∀ pl w rs, fetchFastlyRanges (.ok pl) w = .ok rs →
      pl.addresses ≠ [] ∧
      rs = pl.addresses ++ (if w then pl.ipv6Addresses else [])) ∧
    (∀ pl w rs, fetchCloudfrontRanges (.ok pl) w = .ok rs →
      (pl.prefixes.filter (fun r => r.service = awsCloudfrontLabel)) ≠ [] ∧
      rs = (pl.prefixes.filter (fun r => r.service = awsCloudfrontLabel)).map
          (fun r => goTrimSpace r.ipPrefix) ++
        (if w then (pl.ipv6Prefixes.filter
            (fun r => r.service = awsCloudfrontLabel)).map
            (fun r => goTrimSpace r.ipv6Prefix)
         else [])) ∧
    (∀ g r4 r6 w rs, fetchCustomRanges g r4 r6 w = .ok rs →
      ∃ b4, g r4 = .ok b4 ∧ parseIP (goTrimSpace b4) ≠ [] ∧
        ∃ v6, rs = [goTrimSpace b4] ++ v6 ∧
          (w = false → v6 = []) ∧
          (w = true → ∃ b6 c6, g r6 = .ok b6 ∧
            ipv6ToCIDR (goTrimSpace b6) = .ok c6 ∧ v6 = [c6])) := by
  refine ⟨?_, cloudflare_ok_shape, fastly_ok_shape, cloudfront_ok_shape,
    custom_ok_shape⟩
  intro env p rs h
  have hne : rs ≠ [] := by
    unfold fetchProviderRanges at h
    split at h
    · obtain ⟨b4, _, hpl, v6, hrs, _⟩ := cloudflare_ok_shape _ _ _ h
      simp [hrs, hpl]
    · split at h
      · match hd : env.fastlyDecode with
        | .error e => rw [hd] at h; simp [fetchFastlyRanges] at h
        | .ok pl =>
          rw [hd] at h
          obtain ⟨hpl, hrs⟩ := fastly_ok_shape _ _ _ h
          simp [hrs, hpl]
      · split at h
        · match hd : env.awsDecode with
          | .error e => rw [hd] at h; simp [fetchCloudfrontRanges] at h
          | .ok pl =>
            rw [hd] at h
            obtain ⟨hpl, hrs⟩ := cloudfront_ok_shape _ _ _ h
            simp [hrs, hpl]
        · split at h
          · obtain ⟨b4, _, _, v6, hrs, _⟩ := custom_ok_shape _ _ _ _ _ h
            simp [hrs]
          · simp at h
  refine ⟨hne, ?_⟩
  unfold buildSourceRanges
  rw [h]
  unfold aggregateRanges
  dsimp only
  rw [if_neg (by simp [List.isEmpty_iff, hne])]

/-- Witness for C10: the main conjunct applied to a concrete
environment and cloudflare provider. -/
theorem claim_C10_witness :
    (["198.51.100.0/24"] : List String) ≠ [] ∧
    buildSourceRanges w10Env w10Prov =
      .ok (w10Prov.additionalSourceRange ++ ["198.51.100.0/24"]) :=
  claim_C10.1 w10Env w10Prov ["198.51.100.0/24"] (by rfl)

/-- C8: with the IPv6-inclusion flag off, no strategy consults an IPv6
endpoint or payload field: the cloudflare and custom results depend
only on the getter's value at their IPv4 endpoint, the fastly and
cloudfront results are unchanged under any change of the IPv6 payload
field, and each successful result consists of IPv4-derived entries
only. -/
theorem claim_C8 :
    (∀ g g' : String → Except String String,
      g cloudflareIPv4Endpoint = g' cloudflareIPv4Endpoint →
      fetchCloudflareRanges g false = fetchCloudflareRanges g' false) ∧
    (∀ (g : String → Except String String) (body : String),
      g cloudflareIPv4Endpoint = .ok body →
      fetchCloudflareRanges g false =
        (if (parseLineList body).isEmpty then
          Except.error "cloudflare: empty IPv4 range list"
         else Except.ok (parseLineList body))) ∧
    (∀ (g g' : String → Except String String) (r4 r6 r6' : String),
      g r4 = g' r4 →
      fetchCustomRanges g r4 r6 false = fetchCustomRanges g' r4 r6' false) ∧
    (∀ (g : String → Except String String) (r4 r6 : String) (rs : List String),
      fetchCustomRanges g r4 r6 false = .ok rs →
      ∃ body, g r4 = .ok body ∧ rs = [goTrimSpace body]) ∧
    (∀ a v6 v6' : List String,
      fetchFastlyRanges (.ok ⟨a, v6⟩) false =
        fetchFastlyRanges (.ok ⟨a, v6'⟩) false) ∧
    (∀ pl : FastlyPayload,
      fetchFastlyRanges (.ok pl) false =
        (if pl.addresses.isEmpty then
          Except.error "fastly: empty IPv4 addresses list"
         else Except.ok pl.addresses)) ∧
    (∀ (p4 : List AwsV4Rec) (v6 v6' : List AwsV6Rec),
      fetchCloudfrontRanges (.ok ⟨p4, v6⟩) false =
        fetchCloudfrontRanges (.ok ⟨p4, v6'⟩) false) ∧
    (∀ (pl : AwsPayload) (rs : List String),
      fetchCloudfrontRanges (.ok pl) false = .ok rs →
      rs = (pl.prefixes.filter (fun r => r.service = awsCloudfrontLabel)).map
        (fun r => goTrimSpace r.ipPrefix)) := by
  refine ⟨?_, ?_, ?_, ?_, ?_, ?_, ?_, ?_⟩
  · intro g g' hgg
    unfold fetchCloudflareRanges
    rw [hgg]
    cases g' cloudflareIPv4Endpoint <;> rfl
  · intro g body hg
    unfold fetchCloudflareRanges
    rw [hg]
    rfl
  · intro g g' r4 r6 r6' hgg
    unfold fetchCustomRanges
    rw [hgg]
    split
    · rfl
    · cases g' r4 <;> rfl
  · intro g r4 r6 rs h
    obtain ⟨b4, hb4, _, v6, hrs, hf, _⟩ := custom_ok_shape g r4 r6 false rs h
    exact ⟨b4, hb4, by rw [hrs, hf rfl, List.append_nil]⟩
  · intro a v6 v6'
    rfl
  · intro pl
    unfold fetchFastlyRanges
    rfl
  · intro p4 v6 v6'
    rfl
  · intro pl rs h
    obtain ⟨_, hrs⟩ := cloudfront_ok_shape pl false rs h
    rw [hrs, if_neg (by simp), List.append_nil]

/-- Witness for C8: the extensionality conjuncts applied to concrete
getters that differ at the IPv6 endpoints, and the shape conjuncts at
concrete payloads. -/
theorem claim_C8_witness :
    (fetchCloudflareRanges w8GetA false = fetchCloudflareRanges w8GetB false) ∧
    (fetchCloudflareRanges w8GetA false =
      (if (parseLineList "198.51.100.0/24").isEmpty then
        Except.error "cloudflare: empty IPv4 range list"
       else Except.ok (parseLineList "198.51.100.0/24"))) ∧
    (fetchCustomRanges w8GetA "r4" "r6" false =
      fetchCustomRanges w8GetB "r4" "r6x" false) ∧
    (∃ body, w8GetC "r4" = .ok body ∧
      (["192.0.2.123"] : List String) = [goTrimSpace body]) ∧
    (fetchFastlyRanges (.ok ⟨["a"], ["x"]⟩) false =
      fetchFastlyRanges (.ok ⟨["a"], ["y"]⟩) false) ∧
    (fetchCloudfrontRanges (.ok ⟨[⟨"a", "CLOUDFRONT"⟩], [⟨"x", "CLOUDFRONT"⟩]⟩) false =
      fetchCloudfrontRanges (.ok ⟨[⟨"a", "CLOUDFRONT"⟩], [⟨"y", "CLOUDFRONT"⟩]⟩) false) :=
  ⟨claim_C8.1 w8GetA w8GetB rfl,
   claim_C8.2.1 w8GetA "198.51.100.0/24" rfl,
   claim_C8.2.2.1 w8GetA w8GetB "r4" "r6" "r6x" rfl,
   claim_C8.2.2.2.1 w8GetC "r4" "r6" ["192.0.2.123"] (by rfl),
   claim_C8.2.2.2.2.1 ["a"] ["x"] ["y"],
   claim_C8.2.2.2.2.2.2.1 [⟨"a", "CLOUDFRONT"⟩] [⟨"x", "CLOUDFRONT"⟩]
     [⟨"y", "CLOUDFRONT"⟩]⟩

end TDPW
